import Mathlib

/-!
Verification development for the minicov coverage-runtime bridge.

The definitions below are a shallow embedding of src/minicov/src/lib.rs:
machine bytes are modelled as natural numbers, raw pointers as either
a byte-valued memory function (non-null) or the absence of one (null),
and the host-supplied sink (the CoverageWriter trait) as an explicit
state-passing write function returning a success flag.
-/

namespace Minicov

/-- Embedding of the ProfDataIOVec struct from lib.rs: a logical byte
range with a backing pointer (modelled as a byte memory, none for the
null pointer), an element size, an element count, and the unused
UseZeroPadding flag. -/
structure ProfDataIOVec where
  Data : Option (Nat → Nat)
  ElmSize : Nat
  NumElm : Nat
  UseZeroPadding : Int

/-- Reading len bytes from a backing memory, as slice::from_raw_parts
does for a non-null Data pointer. -/
def readBytes (mem : Nat → Nat) (len : Nat) : List Nat :=
  (List.range len).map mem

/-- Embedding of the fixed zero scratch buffer, let zero = [0; 16]. -/
def zeroChunk : List Nat := List.replicate 16 0

/-- Embedding of the zero-padding while loop of write_callback for a
null Data pointer: while remaining is nonzero, write a prefix of the
16-byte zero buffer of length min 16 remaining, aborting with the
failure flag on the first failed write. -/
def padLoop {σ : Type} (write : σ → List Nat → σ × Bool) (s : σ)
    (remaining : Nat) : σ × Bool :=
  if remaining = 0 then (s, true)
  else
    if (write s (zeroChunk.take (min zeroChunk.length remaining))).2 then
      padLoop write (write s (zeroChunk.take (min zeroChunk.length remaining))).1
        (remaining - (zeroChunk.take (min zeroChunk.length remaining)).length)
    else ((write s (zeroChunk.take (min zeroChunk.length remaining))).1, false)
  termination_by remaining
  decreasing_by
    simp only [zeroChunk, List.length_take, List.length_replicate]
    omega

/-- Embedding of write_callback from lib.rs: iterate the iovec list in
order; a null-pointer entry is padded with zero chunks via padLoop, a
non-null entry is forwarded as one chunk of ElmSize * NumElm bytes; the
first sink failure aborts with status 1, otherwise the status is 0. -/
def write_callback {σ : Type} (write : σ → List Nat → σ × Bool) :
    σ → List ProfDataIOVec → σ × Nat
  | s, [] => (s, 0)
  | s, iov :: rest =>
    let len := iov.ElmSize * iov.NumElm
    match iov.Data with
    | none =>
      let p := padLoop write s len
      if p.2 then write_callback write p.1 rest else (p.1, 1)
    | some mem =>
      let q := write s (readBytes mem len)
      if q.2 then write_callback write q.1 rest else (q.1, 1)

/-- Chunk sequence emitted by the padding loop for a given remaining
length, independent of the sink. -/
def padChunks (remaining : Nat) : List (List Nat) :=
  if remaining = 0 then []
  else
    zeroChunk.take (min zeroChunk.length remaining) ::
      padChunks (remaining - (zeroChunk.take (min zeroChunk.length remaining)).length)
  termination_by remaining
  decreasing_by
    simp only [zeroChunk, List.length_take, List.length_replicate]
    omega

/-- Chunk sequence the callback emits for one iovec entry. -/
def iovecChunks (iov : ProfDataIOVec) : List (List Nat) :=
  let len := iov.ElmSize * iov.NumElm
  match iov.Data with
  | none => padChunks len
  | some mem => [readBytes mem len]

/-- Chunk sequence the callback emits for a whole iovec list. -/
def callbackChunks (iovecs : List ProfDataIOVec) : List (List Nat) :=
  (iovecs.map iovecChunks).flatten

/-- Feeding a chunk sequence to a sink one write at a time, stopping at
the first failure. -/
def runChunks {σ : Type} (write : σ → List Nat → σ × Bool) :
    σ → List (List Nat) → σ × Bool
  | s, [] => (s, true)
  | s, c :: cs =>
    let p := write s c
    if p.2 then runChunks write p.1 cs else (p.1, false)

/-- Sink that records the chunks delivered to it and never fails. -/
def traceWrite (tr : List (List Nat)) (data : List Nat) :
    List (List Nat) × Bool :=
  (tr ++ [data], true)

/-- Sink that counts its invocations and never fails. -/
def countWrite (n : Nat) (_data : List Nat) : Nat × Bool :=
  (n + 1, true)

/-- Embedding of the CoverageWriter impl for Vec of u8 in lib.rs:
extend_from_slice the chunk onto the vector and return Ok. -/
def vecWrite (v : List Nat) (data : List Nat) : List Nat × Bool :=
  (v ++ data, true)

/-- Sink whose write succeeds on its first N-1 calls and fails on its
Nth call, carrying an arbitrary extra state updated by f. -/
def genFailWrite {τ : Type} (N : Nat) (f : τ → List Nat → τ)
    (p : Nat × τ) (c : List Nat) : (Nat × τ) × Bool :=
  ((p.1 + 1, f p.2 c), decide (p.1 + 1 ≠ N))

/-- Bytes an entry contributes to the output stream according to the
specification: the backing bytes for a real range, a zero run for a
virtual range, of length ElmSize * NumElm either way. -/
def specEntryBytes (iov : ProfDataIOVec) : List Nat :=
  match iov.Data with
  | some mem => readBytes mem (iov.ElmSize * iov.NumElm)
  | none => List.replicate (iov.ElmSize * iov.NumElm) 0

lemma padLoop_eq_runChunks {σ : Type} (write : σ → List Nat → σ × Bool)
    (s : σ) (remaining : Nat) :
    padLoop write s remaining = runChunks write s (padChunks remaining) := by
  induction remaining using padChunks.induct generalizing s with
  | case1 =>
    rw [padLoop, padChunks]
    simp [runChunks]
  | case2 r hr ih =>
    rw [padLoop, padChunks]
    simp only [if_neg hr, runChunks]
    have hlen : (List.take (zeroChunk.length ⊓ r) zeroChunk).length =
        zeroChunk.length ⊓ r := by
      simp [List.length_take]
    rw [hlen] at ih
    by_cases hp : (write s (zeroChunk.take (min zeroChunk.length r))).2
    · simp [hp, ih]
    · simp [hp]

lemma runChunks_append {σ : Type} (write : σ → List Nat → σ × Bool)
    (xs ys : List (List Nat)) (s : σ) :
    runChunks write s (xs ++ ys) =
      if (runChunks write s xs).2 then
        runChunks write (runChunks write s xs).1 ys
      else runChunks write s xs := by
  induction xs generalizing s with
  | nil => simp [runChunks]
  | cons c cs ih =>
    simp only [List.cons_append, runChunks]
    by_cases hp : (write s c).2
    · simp [hp, ih]
    · simp [hp]

lemma write_callback_eq_runChunks {σ : Type}
    (write : σ → List Nat → σ × Bool) (s : σ)
    (iovecs : List ProfDataIOVec) :
    write_callback write s iovecs =
      ((runChunks write s (callbackChunks iovecs)).1,
        if (runChunks write s (callbackChunks iovecs)).2 then 0 else 1) := by
  induction iovecs generalizing s with
  | nil => simp [write_callback, callbackChunks, runChunks]
  | cons iov rest ih =>
    have hcc : callbackChunks (iov :: rest) =
        iovecChunks iov ++ callbackChunks rest := by
      simp [callbackChunks]
    rw [hcc]
    cases hD : iov.Data with
    | none =>
      simp only [write_callback, hD, padLoop_eq_runChunks, iovecChunks,
        runChunks_append]
      by_cases hp : (runChunks write s (padChunks (iov.ElmSize * iov.NumElm))).2
      · simp [hp, ih]
      · simp [hp]
    | some mem =>
      simp only [write_callback, hD, iovecChunks, List.singleton_append,
        runChunks]
      by_cases hp : (write s (readBytes mem (iov.ElmSize * iov.NumElm))).2
      · simp [hp, ih]
      · simp [hp]

lemma runChunks_trace (cs : List (List Nat)) (tr : List (List Nat)) :
    runChunks traceWrite tr cs = (tr ++ cs, true) := by
  induction cs generalizing tr with
  | nil => simp [runChunks]
  | cons c cs ih => simp [runChunks, traceWrite, ih]

lemma runChunks_count (cs : List (List Nat)) (n : Nat) :
    runChunks countWrite n cs = (n + cs.length, true) := by
  induction cs generalizing n with
  | nil => simp [runChunks]
  | cons c cs ih =>
    simp [runChunks, countWrite, ih]
    omega

lemma runChunks_vec (cs : List (List Nat)) (v : List Nat) :
    runChunks vecWrite v cs = (v ++ cs.flatten, true) := by
  induction cs generalizing v with
  | nil => simp [runChunks]
  | cons c cs ih => simp [runChunks, vecWrite, ih]

lemma padChunks_flatten (r : Nat) :
    (padChunks r).flatten = List.replicate r 0 := by
  induction r using padChunks.induct with
  | case1 => rw [padChunks]; simp
  | case2 r hr ih =>
    rw [padChunks]
    simp only [if_neg hr, List.flatten_cons, ih]
    simp only [zeroChunk, List.take_replicate, List.length_take,
      List.length_replicate]
    rw [← List.replicate_add]
    congr 1
    omega

lemma padChunks_mem (r : Nat) (c : List Nat) (hc : c ∈ padChunks r) :
    c.length ≤ 16 ∧ c = zeroChunk.take c.length ∧
      c = List.replicate c.length 0 := by
  induction r using padChunks.induct with
  | case1 => rw [padChunks] at hc; simp at hc
  | case2 r hr ih =>
    rw [padChunks] at hc
    simp only [if_neg hr, List.mem_cons] at hc
    rcases hc with hc | hc
    · subst hc
      have hlen : (List.take (zeroChunk.length ⊓ r) zeroChunk).length =
          16 ⊓ r := by
        simp [zeroChunk, List.length_take]
      refine ⟨?_, ?_, ?_⟩
      · rw [hlen]; omega
      · rw [hlen]
        simp only [zeroChunk, List.length_replicate, List.take_replicate]
      · rw [hlen]
        simp only [zeroChunk, List.length_replicate, List.take_replicate]
        congr 1
        omega
    · exact ih hc

lemma padChunks_length_sum (r : Nat) :
    ((padChunks r).map List.length).sum = r := by
  have h := congrArg List.length (padChunks_flatten r)
  simpa [List.length_flatten] using h

lemma runChunks_genFail {τ : Type} (N : Nat) (f : τ → List Nat → τ)
    (cs : List (List Nat)) (n : Nat) (t : τ)
    (h1 : n + 1 ≤ N) (h2 : N ≤ n + cs.length) :
    (runChunks (genFailWrite N f) (n, t) cs).1.1 = N ∧
      (runChunks (genFailWrite N f) (n, t) cs).2 = false := by
  induction cs generalizing n t with
  | nil => simp at h2; omega
  | cons c cs ih =>
    simp only [runChunks, genFailWrite]
    by_cases hN : n + 1 = N
    · simp [hN]
    · have hd : decide (n + 1 ≠ N) = true := by simp [hN]
      simp only [hd, if_true]
      refine ih (n + 1) (f t c) (by omega) ?_
      simp at h2
      omega

lemma padChunks_zero : padChunks 0 = [] := by
  rw [padChunks]
  simp

lemma runChunks_all_ok {σ : Type} (write : σ → List Nat → σ × Bool)
    (hw : ∀ u c, (write u c).2 = true) (cs : List (List Nat)) (s : σ) :
    (runChunks write s cs).2 = true := by
  induction cs generalizing s with
  | nil => simp [runChunks]
  | cons c cs ih => simp [runChunks, hw, ih]

lemma specEntryBytes_length (iov : ProfDataIOVec) :
    (specEntryBytes iov).length = iov.ElmSize * iov.NumElm := by
  cases hD : iov.Data <;> simp [specEntryBytes, hD, readBytes]

lemma iovecChunks_flatten (iov : ProfDataIOVec) :
    (iovecChunks iov).flatten = specEntryBytes iov := by
  cases hD : iov.Data with
  | none => simp [iovecChunks, hD, specEntryBytes, padChunks_flatten]
  | some mem => simp [iovecChunks, hD, specEntryBytes]

lemma callbackChunks_flatten (iovecs : List ProfDataIOVec) :
    (callbackChunks iovecs).flatten =
      (iovecs.map specEntryBytes).flatten := by
  induction iovecs with
  | nil => simp [callbackChunks]
  | cons iov rest ih =>
    have hcc : callbackChunks (iov :: rest) =
        iovecChunks iov ++ callbackChunks rest := by
      simp [callbackChunks]
    rw [hcc]
    simp [iovecChunks_flatten, ih]

/-- Embedding of the constant INSTR_PROF_RAW_VERSION from lib.rs. -/
def INSTR_PROF_RAW_VERSION : Nat := 10

/-- Embedding of the constant VARIANT_MASKS_ALL from lib.rs. -/
def VARIANT_MASKS_ALL : Nat := 0xffffffff00000000

/-- Complement of VARIANT_MASKS_ALL on 64 bits, the mask the source
computes with the bitwise-not operator applied to a u64. -/
def NOT_VARIANT_MASKS : Nat := (2 ^ 64 - 1) ^^^ VARIANT_MASKS_ALL

/-- Embedding of check_version from lib.rs as the condition of its
assert_eq: true when the version word with the variant-mask region
cleared equals the expected compile-time constant; the source panics
when this is false. -/
def check_version (version : Nat) : Bool :=
  version &&& NOT_VARIANT_MASKS == INSTR_PROF_RAW_VERSION

/-- Error type returned by merge_coverage, from lib.rs. -/
structure IncompatibleCoverageData where

/-- Error type returned by capture_coverage, from lib.rs. -/
structure CoverageWriteError where

/-- External runtime entry points an operation may invoke, used to
record the call trace of each host-facing operation. -/
inductive ExtCall where
  | get_version : ExtCall
  | check_compatibility : List Nat → ExtCall
  | merge_from_buffer : List Nat → ExtCall
  | reset_counters : ExtCall
  | write_data : ExtCall
  deriving DecidableEq

/-- Model of the linked LLVM profiling runtime: its counter state has
an abstract type, the version word is read from it, the compatibility
check is a read-only query on state and blob, the buffer merge may
update the state and returns an i32 status, and the counter reset
updates the state. -/
structure ProfRuntime (σ : Type) where
  get_version : σ → Nat
  check_compatibility : σ → List Nat → Int
  merge_from_buffer : σ → List Nat → σ × Int
  reset_counters : σ → σ

/-- Embedding of merge_coverage from lib.rs over the runtime model,
returning the Rust result (none models the check_version panic), the
final runtime state, and the trace of runtime entry points invoked:
check_version first, then the compatibility check, then, only when the
check returned 0, the buffer merge; a nonzero status from either gives
the IncompatibleCoverageData error. -/
def merge_coverage {σ : Type} (rt : ProfRuntime σ) (s : σ)
    (data : List Nat) :
    Option (Except IncompatibleCoverageData Unit) × σ × List ExtCall :=
  if check_version (rt.get_version s) then
    if rt.check_compatibility s data = 0 then
      if (rt.merge_from_buffer s data).2 = 0 then
        (some (Except.ok ()), (rt.merge_from_buffer s data).1,
          [ExtCall.get_version, ExtCall.check_compatibility data,
            ExtCall.merge_from_buffer data])
      else
        (some (Except.error IncompatibleCoverageData.mk),
          (rt.merge_from_buffer s data).1,
          [ExtCall.get_version, ExtCall.check_compatibility data,
            ExtCall.merge_from_buffer data])
    else
      (some (Except.error IncompatibleCoverageData.mk), s,
        [ExtCall.get_version, ExtCall.check_compatibility data])
  else (none, s, [ExtCall.get_version])

/-- Embedding of reset_coverage from lib.rs over the runtime model:
check_version first, then the counter reset. -/
def reset_coverage {σ : Type} (rt : ProfRuntime σ) (s : σ) :
    Option Unit × σ × List ExtCall :=
  if check_version (rt.get_version s) then
    (some (), rt.reset_counters s,
      [ExtCall.get_version, ExtCall.reset_counters])
  else (none, s, [ExtCall.get_version])

/-- Embedding of capture_coverage from lib.rs: check_version first,
then the runtime data-write entry point lprofWriteData is handed the
bridge callback bound to the caller's sink (the value-profiling reader
handle is folded into the write_data oracle); a 0 status yields Ok and
any other status yields CoverageWriteError. -/
def capture_coverage {ρ σ : Type} (rt : ProfRuntime ρ) (rs : ρ)
    (write_data : (σ → List ProfDataIOVec → σ × Nat) → σ → σ × Int)
    (write : σ → List Nat → σ × Bool) (s : σ) :
    Option (Except CoverageWriteError Unit) × σ × List ExtCall :=
  if check_version (rt.get_version rs) then
    if (write_data (write_callback write) s).2 = 0 then
      (some (Except.ok ()), (write_data (write_callback write) s).1,
        [ExtCall.get_version, ExtCall.write_data])
    else
      (some (Except.error CoverageWriteError.mk),
        (write_data (write_callback write) s).1,
        [ExtCall.get_version, ExtCall.write_data])
  else (none, s, [ExtCall.get_version])

/-- Embedding of the allocation shim with the alloc feature disabled:
allocate-zeroed ignores its size and alignment and returns the null
pointer without touching the abstract allocator state. -/
def minicov_alloc_zeroed_noalloc {H : Type} (h : H) (_size _align : Nat) :
    H × Option Nat :=
  (h, none)

/-- Embedding of the allocation shim with the alloc feature disabled:
deallocate has an empty body, leaving the abstract allocator state
unchanged for every argument triple. -/
def minicov_dealloc_noalloc {H : Type} (h : H) (_ptr : Option Nat)
    (_size _align : Nat) : H :=
  h

/-- C1: for every iovec list given to the bridge callback, the
concatenation of the chunks delivered to the sink equals the in-order
concatenation, over the entries, of the backing bytes of a non-null
entry and a zero run of the same declared length for a null entry, so
the total byte count is exactly the sum of the ElmSize * NumElm fields,
for every value of the UseZeroPadding flags; the callback also reports
success. -/
theorem write_callback_concat_correct (iovecs : List ProfDataIOVec) :
    ((write_callback traceWrite [] iovecs).1).flatten =
      (iovecs.map specEntryBytes).flatten ∧
    ((write_callback traceWrite [] iovecs).1).flatten.length =
      (iovecs.map (fun iov => iov.ElmSize * iov.NumElm)).sum ∧
    (write_callback traceWrite [] iovecs).2 = 0 := by
  have h : write_callback traceWrite [] iovecs = (callbackChunks iovecs, 0) := by
    rw [write_callback_eq_runChunks, runChunks_trace]
    simp
  rw [h]
  refine ⟨callbackChunks_flatten iovecs, ?_, rfl⟩
  rw [callbackChunks_flatten, List.length_flatten, List.map_map]
  congr 1
  apply List.map_congr_left
  intro a _
  simp [Function.comp, specEntryBytes_length]

/-- C2 counterexample: a non-null entry with ElmSize equal to 0, hence
of zero length, still invokes the sink once, with an empty chunk,
refuting the claim that zero-length entries never trigger a sink
call. -/
theorem zero_len_entry_invokes_sink :
    (write_callback countWrite 0
      [ProfDataIOVec.mk (some (fun _ => 0)) 0 5 0]).1 = 1 ∧
    (write_callback traceWrite []
      [ProfDataIOVec.mk (some (fun _ => 0)) 0 5 0]).1 = [[]] :=
  ⟨rfl, rfl⟩

/-- C2 amended: a null-pointer entry of zero length contributes no
chunk, hence no sink call, while a non-null entry always contributes
exactly one chunk, empty when the length is zero; the number of sink
invocations the callback performs on a never-failing counting sink
equals the number of contributed chunks. -/
theorem zero_len_null_entry_no_sink_call (iov : ProfDataIOVec)
    (h : iov.ElmSize = 0 ∨ iov.NumElm = 0) :
    (iov.Data = none → iovecChunks iov = []) ∧
    (∀ mem, iov.Data = some mem → iovecChunks iov = [[]]) ∧
    (∀ iovecs : List ProfDataIOVec,
      (write_callback countWrite 0 iovecs).1 =
        (callbackChunks iovecs).length) := by
  have hlen : iov.ElmSize * iov.NumElm = 0 := by
    rcases h with h | h <;> simp [h]
  refine ⟨?_, ?_, ?_⟩
  · intro hD
    simp [iovecChunks, hD, hlen, padChunks_zero]
  · intro mem hD
    simp [iovecChunks, hD, hlen, readBytes]
  · intro iovecs
    have hcb := write_callback_eq_runChunks countWrite 0 iovecs
    rw [runChunks_count] at hcb
    simp only [if_true] at hcb
    rw [hcb]
    simp

/-- C2 amended witness at a concrete zero-length null entry. -/
theorem zero_len_null_entry_no_sink_call_witness :
    iovecChunks (ProfDataIOVec.mk none 0 3 1) = [] :=
  (zero_len_null_entry_no_sink_call (ProfDataIOVec.mk none 0 3 1)
    (Or.inl rfl)).1 rfl

/-- C3: a sink that succeeds on its first N-1 calls and fails on its
Nth call, whatever extra state it carries, is invoked exactly N times
by the bridge callback, which then returns status 1; a sink that never
fails makes the callback return status 0. -/
theorem sink_failure_stops_bridge {τ : Type} (N : Nat)
    (f : τ → List Nat → τ) (t0 : τ) (iovecs : List ProfDataIOVec)
    (h1 : 1 ≤ N) (h2 : N ≤ (callbackChunks iovecs).length) :
    ((write_callback (genFailWrite N f) (0, t0) iovecs).1.1 = N ∧
      (write_callback (genFailWrite N f) (0, t0) iovecs).2 = 1) ∧
    (∀ {σ : Type} (write : σ → List Nat → σ × Bool) (s : σ),
      (∀ u c, (write u c).2 = true) →
      (write_callback write s iovecs).2 = 0) := by
  constructor
  · have h := write_callback_eq_runChunks (genFailWrite N f) (0, t0) iovecs
    obtain ⟨hA, hB⟩ := runChunks_genFail N f (callbackChunks iovecs) 0 t0
      (by omega) (by omega)
    rw [h]
    simp [hA, hB]
  · intro σ write s hw
    rw [write_callback_eq_runChunks]
    simp [runChunks_all_ok write hw]

/-- C3 witness: a sink failing on its first call is invoked once and
the bridge returns 1 on a one-entry list. -/
theorem sink_failure_stops_bridge_witness :
    (write_callback (genFailWrite 1 (fun (t : Unit) _ => t)) (0, ())
        [ProfDataIOVec.mk (some (fun _ => 0)) 1 1 0]).1.1 = 1 ∧
    (write_callback (genFailWrite 1 (fun (t : Unit) _ => t)) (0, ())
        [ProfDataIOVec.mk (some (fun _ => 0)) 1 1 0]).2 = 1 :=
  (sink_failure_stops_bridge 1 (fun (t : Unit) _ => t) ()
    [ProfDataIOVec.mk (some (fun _ => 0)) 1 1 0]
    (by decide) (by decide)).1

/-- C4: each host-facing operation reads the runtime version word
first and, when the word with the variant-mask region cleared differs
from INSTR_PROF_RAW_VERSION, fails fatally with no recoverable error,
leaving its state untouched and invoking no other runtime entry point;
the gate condition is exactly that the version word masked by the
complement of VARIANT_MASKS_ALL equals the constant 10. -/
theorem version_gate_blocks_all_ops {ρ σ : Type} (rt : ProfRuntime ρ)
    (s : ρ) (data : List Nat)
    (wd : (σ → List ProfDataIOVec → σ × Nat) → σ → σ × Int)
    (w : σ → List Nat → σ × Bool) (ws : σ)
    (hv : check_version (rt.get_version s) = false) :
    merge_coverage rt s data = (none, s, [ExtCall.get_version]) ∧
    reset_coverage rt s = (none, s, [ExtCall.get_version]) ∧
    capture_coverage rt s wd w ws = (none, ws, [ExtCall.get_version]) ∧
    (∀ v : Nat, check_version v = true ↔
      v &&& NOT_VARIANT_MASKS = INSTR_PROF_RAW_VERSION) ∧
    NOT_VARIANT_MASKS = (2 ^ 64 - 1) ^^^ VARIANT_MASKS_ALL ∧
    INSTR_PROF_RAW_VERSION = 10 := by
  refine ⟨?_, ?_, ?_, ?_, rfl, rfl⟩
  · simp [merge_coverage, hv]
  · simp [reset_coverage, hv]
  · simp [capture_coverage, hv]
  · intro v
    simp [check_version]

/-- C4 witness at a runtime whose version word is 0. -/
theorem version_gate_blocks_all_ops_witness :
    merge_coverage
        (ProfRuntime.mk (fun (_ : Unit) => 0) (fun _ _ => 1)
          (fun s _ => (s, 1)) (fun s => s)) () [] =
      (none, (), [ExtCall.get_version]) :=
  (version_gate_blocks_all_ops
    (ProfRuntime.mk (fun (_ : Unit) => 0) (fun _ _ => 1)
      (fun s _ => (s, 1)) (fun s => s)) () []
    (fun _ (s : Unit) => (s, 0)) (fun s _ => (s, true)) ()
    (by decide)).1

/-- C5: when the runtime compatibility check reports the blob
incompatible, merge_coverage returns the IncompatibleCoverageData
error, leaves the counter state unchanged, records no call to the
buffer-merge entry point, and its outcome is independent of the
buffer-merge entry point altogether. -/
theorem merge_incompatible_no_merge_call {σ : Type} (rt : ProfRuntime σ)
    (s : σ) (data : List Nat)
    (hv : check_version (rt.get_version s) = true)
    (hc : rt.check_compatibility s data ≠ 0) :
    merge_coverage rt s data =
      (some (Except.error IncompatibleCoverageData.mk), s,
        [ExtCall.get_version, ExtCall.check_compatibility data]) ∧
    (∀ f : σ → List Nat → σ × Int,
      merge_coverage (ProfRuntime.mk rt.get_version
          rt.check_compatibility f rt.reset_counters) s data =
        merge_coverage rt s data) := by
  constructor
  · simp [merge_coverage, hv, hc]
  · intro f
    simp [merge_coverage, hv, hc]

/-- C5 witness at a runtime of version 10 whose compatibility check
returns 1. -/
theorem merge_incompatible_no_merge_call_witness :
    merge_coverage
        (ProfRuntime.mk (fun (_ : Unit) => 10) (fun _ _ => 1)
          (fun s _ => (s, 0)) (fun s => s)) () [] =
      (some (Except.error IncompatibleCoverageData.mk), (),
        [ExtCall.get_version, ExtCall.check_compatibility []]) :=
  (merge_incompatible_no_merge_call
    (ProfRuntime.mk (fun (_ : Unit) => 10) (fun _ _ => 1)
      (fun s _ => (s, 0)) (fun s => s)) () []
    (by decide) (by decide)).1

/-- C6: for a virtual padding range of length L the padding loop is a
total function whose sink interaction is the chunk list padChunks L:
every chunk has length at most 16, is a prefix of the fixed zero
scratch buffer, hence all zeros, and the chunk lengths sum to exactly
L. -/
theorem padding_loop_bounded_chunks (L : Nat) :
    padLoop traceWrite [] L = (padChunks L, true) ∧
    (∀ c ∈ padChunks L, c.length ≤ 16 ∧ c = zeroChunk.take c.length ∧
      c = List.replicate c.length 0) ∧
    ((padChunks L).map List.length).sum = L := by
  refine ⟨?_, fun c hc => padChunks_mem L c hc, padChunks_length_sum L⟩
  rw [padLoop_eq_runChunks, runChunks_trace]
  simp

/-- C7: capture_coverage succeeds exactly when the data-write entry
point, applied to the bridge callback bound to the sink, returns 0,
and yields the CoverageWriteError value for every nonzero status; the
final sink state is whatever the data-write entry point produced. -/
theorem capture_ok_iff_write_data_ok {ρ σ : Type} (rt : ProfRuntime ρ)
    (rs : ρ)
    (wd : (σ → List ProfDataIOVec → σ × Nat) → σ → σ × Int)
    (write : σ → List Nat → σ × Bool) (s : σ)
    (hv : check_version (rt.get_version rs) = true) :
    ((capture_coverage rt rs wd write s).1 = some (Except.ok ()) ↔
      (wd (write_callback write) s).2 = 0) ∧
    ((wd (write_callback write) s).2 ≠ 0 →
      (capture_coverage rt rs wd write s).1 =
        some (Except.error CoverageWriteError.mk)) ∧
    (capture_coverage rt rs wd write s).2.1 =
      (wd (write_callback write) s).1 := by
  by_cases h0 : (wd (write_callback write) s).2 = 0
  · simp [capture_coverage, hv, h0]
  · simp [capture_coverage, hv, h0]

/-- C7 witness at a runtime of version 10 whose data-write entry point
returns 0. -/
theorem capture_ok_iff_write_data_ok_witness :
    (capture_coverage
        (ProfRuntime.mk (fun (_ : Unit) => 10) (fun _ _ => 1)
          (fun s _ => (s, 0)) (fun s => s)) ()
        (fun _ (s : Unit) => (s, 0)) (fun s _ => (s, true)) ()).1 =
      some (Except.ok ()) :=
  (capture_ok_iff_write_data_ok
    (ProfRuntime.mk (fun (_ : Unit) => 10) (fun _ _ => 1)
      (fun s _ => (s, 0)) (fun s => s)) ()
    (fun _ (s : Unit) => (s, 0)) (fun s _ => (s, true)) ()
    (by decide)).1.mpr rfl

/-- C8: the growable in-memory sink never fails and appends each chunk
to its contents, so a sequence of writes starting from contents v ends
with v followed by the concatenation of the chunks in call order. -/
theorem vec_writer_appends (chunks : List (List Nat)) (v : List Nat) :
    runChunks vecWrite v chunks = (v ++ chunks.flatten, true) ∧
    (∀ u data, (vecWrite u data).2 = true) ∧
    (∀ u data, (vecWrite u data).1 = u ++ data) :=
  ⟨runChunks_vec chunks v, fun _ _ => rfl, fun _ _ => rfl⟩

/-- C9: with the alloc feature disabled, allocate-zeroed returns the
null pointer for every size and alignment and leaves the allocator
state untouched, and deallocate is a no-op for every argument
triple. -/
theorem noalloc_shim_null_and_noop {H : Type} (h : H) :
    (∀ size align : Nat,
      minicov_alloc_zeroed_noalloc h size align = (h, none)) ∧
    (∀ (ptr : Option Nat) (size align : Nat),
      minicov_dealloc_noalloc h ptr size align = h) :=
  ⟨fun _ _ => rfl, fun _ _ _ => rfl⟩

/-- C10: when the compatibility check returns 0 but the buffer-merge
entry point returns a nonzero status, merge_coverage still returns the
IncompatibleCoverageData error after having invoked the buffer merge,
and the returned error is identical to the one produced for an
incompatible blob, so the two failure modes are indistinguishable to
the caller. -/
theorem merge_failure_indistinguishable {σ : Type} (rt : ProfRuntime σ)
    (s : σ) (data : List Nat)
    (hv : check_version (rt.get_version s) = true)
    (hc : rt.check_compatibility s data = 0)
    (hm : (rt.merge_from_buffer s data).2 ≠ 0) :
    (merge_coverage rt s data).1 =
      some (Except.error IncompatibleCoverageData.mk) ∧
    (merge_coverage rt s data).2.2 =
      [ExtCall.get_version, ExtCall.check_compatibility data,
        ExtCall.merge_from_buffer data] ∧
    (merge_coverage rt s data).1 =
      (merge_coverage (ProfRuntime.mk rt.get_version (fun _ _ => 1)
        rt.merge_from_buffer rt.reset_counters) s data).1 := by
  refine ⟨?_, ?_, ?_⟩ <;> simp [merge_coverage, hv, hc, hm]

/-- C10 witness at a runtime of version 10 whose compatibility check
returns 0 and whose buffer merge returns 1. -/
theorem merge_failure_indistinguishable_witness :
    (merge_coverage
        (ProfRuntime.mk (fun (_ : Unit) => 10) (fun _ _ => 0)
          (fun s _ => (s, 1)) (fun s => s)) () []).1 =
      some (Except.error IncompatibleCoverageData.mk) :=
  (merge_failure_indistinguishable
    (ProfRuntime.mk (fun (_ : Unit) => 10) (fun _ _ => 0)
      (fun s _ => (s, 1)) (fun s => s)) () []
    (by decide) (by decide) (by decide)).1

end Minicov
